import Mathlib

/-
Verification development for the Talk2Code assistant-invocation streaming
engine.  Python strings are modeled as lists of characters; Python floats
appearing in the progress estimator are modeled as rationals; fallible
Python code (uncaught exceptions) is modeled with Except.
-/

namespace Talk2Code

/-- Python strings are modeled as lists of characters. -/
abbrev PyStr := List Char

/-- The whitespace characters removed by Python str.strip() with no
argument (space, tab, newline, carriage return, vertical tab, form feed). -/
def isPySpace (c : Char) : Bool :=
  c = ' ' || c = '\t' || c = '\n' || c = '\x0d' || c = '\x0b' || c = '\x0c'

/-- Python str.strip(): drop whitespace from both ends. -/
def pyStrip (s : PyStr) : PyStr :=
  ((s.dropWhile isPySpace).reverse.dropWhile isPySpace).reverse

/-- ASCII lower-casing of one character, as Python str.lower() does on the
ASCII inputs that occur in this code base. -/
def pyLowerChar (c : Char) : Char :=
  if 'A' ≤ c && c ≤ 'Z' then Char.ofNat (c.toNat + 32) else c

/-- Python str.lower(). -/
def pyLower (s : PyStr) : PyStr := s.map pyLowerChar

/-- Python substring test: needle in hay. -/
def containsSub (needle hay : PyStr) : Bool :=
  match hay with
  | [] => needle.isEmpty
  | _ :: rest => needle.isPrefixOf hay || containsSub needle rest

/-- Python s.split(chr(10)): split on newline, keeping empty fields, so the
result is always non-empty. -/
def splitNl (s : PyStr) : List PyStr :=
  match s with
  | [] => [[]]
  | c :: rest =>
    if c = '\n' then [] :: splitNl rest
    else
      match splitNl rest with
      | r :: rs => (c :: r) :: rs
      | [] => [[c]]

/-- Python lst[-n:]: the last n elements (the whole list when shorter). -/
def lastN (n : Nat) (l : List PyStr) : List PyStr := l.drop (l.length - n)

/-- A Python float as json.loads produces it for numbers with a fraction
or exponent and for the NaN, Infinity and -Infinity constants.  Finite
values are modeled as exact rationals rather than IEEE doubles (declared
approximation: no judged property depends on float rounding). -/
inductive PyFloat where
  | finite (q : ℚ) : PyFloat
  | nan : PyFloat
  | inf : PyFloat
  | ninf : PyFloat

/-- A decoded JSON value, as produced by json.loads.  Integral literals
become Python ints (jnum); literals with a fraction or exponent, and the
NaN and Infinity constants, become Python floats (jfloat). -/
inductive JValue where
  | jnull : JValue
  | jbool (b : Bool) : JValue
  | jnum (n : Int) : JValue
  | jfloat (x : PyFloat) : JValue
  | jstr (s : PyStr) : JValue
  | jarr (xs : List JValue) : JValue
  | jobj (fields : List (PyStr × JValue)) : JValue

/-- Python truthiness of a decoded JSON value (None, False, 0, 0.0, empty
string, empty list and empty dict are falsy; NaN and the infinities are
truthy). -/
def pyTruthy (v : JValue) : Bool :=
  match v with
  | .jnull => false
  | .jbool b => b
  | .jnum n => n ≠ 0
  | .jfloat (.finite q) => q ≠ 0
  | .jfloat _ => true
  | .jstr s => ¬ s.isEmpty
  | .jarr xs => ¬ xs.isEmpty
  | .jobj fs => ¬ fs.isEmpty

/-- Python dict.get(key, default) on a decoded JSON object.  json.loads
keeps the last occurrence of a duplicated key, so lookup scans from the
end of the field list. -/
def pyDictGet (fields : List (PyStr × JValue)) (key : PyStr) (dflt : JValue) : JValue :=
  match fields.reverse.find? (fun kv => kv.1 = key) with
  | some kv => kv.2
  | none => dflt

/-- Python dict.get(key) with default None, distinguishing a missing key. -/
def pyDictGetOpt (fields : List (PyStr × JValue)) (key : PyStr) : Option JValue :=
  (fields.reverse.find? (fun kv => kv.1 = key)).map (·.2)

/-- JSON whitespace accepted between tokens by json.loads. -/
def isJsonWs (c : Char) : Bool :=
  c = ' ' || c = '\t' || c = '\n' || c = '\x0d'

/-- Whether a character is a hexadecimal digit. -/
def isHexDigitChar (c : Char) : Bool :=
  ('0' ≤ c && c ≤ '9') || ('a' ≤ c && c ≤ 'f') || ('A' ≤ c && c ≤ 'F')

/-- Numeric value of one hexadecimal digit. -/
def hexVal (c : Char) : Nat :=
  if '0' ≤ c && c ≤ '9' then c.toNat - 48
  else if 'a' ≤ c && c ≤ 'f' then c.toNat - 87
  else if 'A' ≤ c && c ≤ 'F' then c.toNat - 55
  else 0

/-- Decode one string escape sequence after a backslash; returns the decoded
character and the rest of the input.  A high surrogate immediately followed
by a low-surrogate escape combines into one character, as json.loads does;
a lone surrogate stays in the Python string but has no Lean counterpart and
degrades to the null character (declared approximation, unreachable from the
line protocols this code base handles). -/
def decodeEscape (s : PyStr) : Option (Char × PyStr) :=
  match s with
  | '"' :: r => some ('"', r)
  | '\\' :: r => some ('\\', r)
  | '/' :: r => some ('/', r)
  | 'b' :: r => some ('\x08', r)
  | 'f' :: r => some ('\x0c', r)
  | 'n' :: r => some ('\n', r)
  | 'r' :: r => some ('\x0d', r)
  | 't' :: r => some ('\t', r)
  | 'u' :: a :: b :: c :: d :: r =>
    if isHexDigitChar a && isHexDigitChar b && isHexDigitChar c && isHexDigitChar d then
      let n := hexVal a * 4096 + hexVal b * 256 + hexVal c * 16 + hexVal d
      if 0xD800 ≤ n && n ≤ 0xDBFF then
        match r with
        | '\\' :: 'u' :: a2 :: b2 :: c2 :: d2 :: r2 =>
          if isHexDigitChar a2 && isHexDigitChar b2 && isHexDigitChar c2
              && isHexDigitChar d2 then
            let m := hexVal a2 * 4096 + hexVal b2 * 256 + hexVal c2 * 16 + hexVal d2
            if 0xDC00 ≤ m && m ≤ 0xDFFF then
              some (Char.ofNat (0x10000 + (n - 0xD800) * 0x400 + (m - 0xDC00)), r2)
            else some (Char.ofNat n, r)
          else some (Char.ofNat n, r)
        | _ => some (Char.ofNat n, r)
      else some (Char.ofNat n, r)
    else none
  | _ => none

/-- Numeric value of a run of decimal digits. -/
def digitsToNat (ds : List Char) : ℕ :=
  ds.foldl (fun acc c => acc * 10 + (c.toNat - 48)) 0

/-- The integer part of the JSON number grammar: a single zero, or a
nonzero digit followed by any digits.  A leading zero never swallows the
following digits, so json.loads rejects 01 with extra data left over. -/
def parseIntPart : PyStr → Option (List Char × PyStr)
  | [] => none
  | '0' :: r => some (['0'], r)
  | c :: r =>
    if c.isDigit then some (c :: r.takeWhile (·.isDigit), r.dropWhile (·.isDigit))
    else none

/-- The optional fraction of the JSON number grammar: a dot followed by at
least one digit, else nothing is consumed. -/
def parseFrac (r : PyStr) : List Char × PyStr :=
  match r with
  | '.' :: rr =>
    let ds := rr.takeWhile (·.isDigit)
    if ds.isEmpty then ([], r) else (ds, rr.dropWhile (·.isDigit))
  | _ => ([], r)

/-- The optional exponent of the JSON number grammar: e or E, an optional
sign, and at least one digit, else nothing is consumed.  Returns the sign
and digits when present. -/
def parseExp (r : PyStr) : Option (Bool × List Char) × PyStr :=
  match r with
  | [] => (none, r)
  | c :: rr =>
    if c = 'e' || c = 'E' then
      match rr with
      | '+' :: rr2 =>
        let ds := rr2.takeWhile (·.isDigit)
        if ds.isEmpty then (none, r) else (some (false, ds), rr2.dropWhile (·.isDigit))
      | '-' :: rr2 =>
        let ds := rr2.takeWhile (·.isDigit)
        if ds.isEmpty then (none, r) else (some (true, ds), rr2.dropWhile (·.isDigit))
      | _ =>
        let ds := rr.takeWhile (·.isDigit)
        if ds.isEmpty then (none, r) else (some (false, ds), rr.dropWhile (·.isDigit))
    else (none, r)

/-- Parse one JSON number following the grammar json.loads uses: an
optional minus, an integer part without leading zeros, an optional
fraction and an optional exponent.  An integral literal becomes a Python
int, anything with a fraction or exponent a Python float. -/
def parseNumber (s : PyStr) : Option (JValue × PyStr) :=
  let p := match s with
    | '-' :: r => (true, r)
    | _ => (false, s)
  let neg := p.1
  match parseIntPart p.2 with
  | none => none
  | some (ids, r1) =>
    let fr := parseFrac r1
    let ex := parseExp fr.2
    let intVal : ℕ := digitsToNat ids
    if fr.1.isEmpty && ex.1.isNone then
      some (.jnum (if neg then -(intVal : Int) else (intVal : Int)), r1)
    else
      let mag : ℚ := (intVal : ℚ) + (digitsToNat fr.1 : ℚ) / (10 : ℚ) ^ fr.1.length
      let scaled : ℚ :=
        match ex.1 with
        | some (true, eds) => mag / (10 : ℚ) ^ digitsToNat eds
        | some (false, eds) => mag * (10 : ℚ) ^ digitsToNat eds
        | none => mag
      some (.jfloat (.finite (if neg then -scaled else scaled)), ex.2)

mutual

/-- Parse one JSON value (fuel-bounded recursive descent). -/
def parseValue : Nat → PyStr → Option (JValue × PyStr)
  | 0, _ => none
  | fuel + 1, s =>
    let s1 := s.dropWhile isJsonWs
    match s1 with
    | 'n' :: 'u' :: 'l' :: 'l' :: r => some (.jnull, r)
    | 't' :: 'r' :: 'u' :: 'e' :: r => some (.jbool true, r)
    | 'f' :: 'a' :: 'l' :: 's' :: 'e' :: r => some (.jbool false, r)
    | 'N' :: 'a' :: 'N' :: r => some (.jfloat .nan, r)
    | 'I' :: 'n' :: 'f' :: 'i' :: 'n' :: 'i' :: 't' :: 'y' :: r =>
      some (.jfloat .inf, r)
    | '-' :: 'I' :: 'n' :: 'f' :: 'i' :: 'n' :: 'i' :: 't' :: 'y' :: r =>
      some (.jfloat .ninf, r)
    | '"' :: r => (parseStringBody fuel r).map (fun p => (.jstr p.1, p.2))
    | '[' :: r =>
      match r.dropWhile isJsonWs with
      | ']' :: r2 => some (.jarr [], r2)
      | _ => (parseArrItems fuel r).map (fun p => (.jarr p.1, p.2))
    | '\x7b' :: r =>
      match r.dropWhile isJsonWs with
      | '\x7d' :: r2 => some (.jobj [], r2)
      | _ => (parseObjItems fuel r).map (fun p => (.jobj p.1, p.2))
    | _ => parseNumber s1

/-- Parse the body of a string literal after the opening quote.  As in
the strict mode json.loads runs in, an unescaped control character below
x20 is a decode error. -/
def parseStringBody : Nat → PyStr → Option (PyStr × PyStr)
  | 0, _ => none
  | fuel + 1, s =>
    match s with
    | [] => none
    | '"' :: r => some ([], r)
    | '\\' :: r =>
      match decodeEscape r with
      | some (c, r2) => (parseStringBody fuel r2).map (fun p => (c :: p.1, p.2))
      | none => none
    | c :: r =>
      if c.toNat < 0x20 then none
      else (parseStringBody fuel r).map (fun p => (c :: p.1, p.2))

/-- Parse the comma-separated items of a non-empty array, up to the
closing bracket. -/
def parseArrItems : Nat → PyStr → Option (List JValue × PyStr)
  | 0, _ => none
  | fuel + 1, s =>
    match parseValue fuel s with
    | none => none
    | some (v, r) =>
      match r.dropWhile isJsonWs with
      | ',' :: r2 => (parseArrItems fuel r2).map (fun p => (v :: p.1, p.2))
      | ']' :: r2 => some ([v], r2)
      | _ => none

/-- Parse the comma-separated key-value pairs of a non-empty object, up to
the closing brace. -/
def parseObjItems : Nat → PyStr → Option (List (PyStr × JValue) × PyStr)
  | 0, _ => none
  | fuel + 1, s =>
    match s.dropWhile isJsonWs with
    | '"' :: r =>
      match parseStringBody fuel r with
      | none => none
      | some (key, r2) =>
        match r2.dropWhile isJsonWs with
        | ':' :: r3 =>
          match parseValue fuel r3 with
          | none => none
          | some (v, r4) =>
            match r4.dropWhile isJsonWs with
            | ',' :: r5 => (parseObjItems fuel r5).map (fun p => ((key, v) :: p.1, p.2))
            | '\x7d' :: r5 => some ([(key, v)], r5)
            | _ => none
        | _ => none
    | _ => none

end

/-- Model of Python json.loads: parse one JSON document, requiring only
whitespace to remain; returns none exactly when json.loads raises
JSONDecodeError. -/
def jsonLoads (s : PyStr) : Option JValue :=
  match parseValue (2 * s.length + 2) s with
  | some (v, rest) => if (rest.dropWhile isJsonWs).isEmpty then some v else none
  | none => none

/-- Uncaught Python exceptions that the modeled code can raise. -/
inductive PyErr where
  | attributeError : PyErr
  | typeError : PyErr
  | indexError : PyErr
deriving DecidableEq, Repr

/-- StreamEventType from assistants/base.py. -/
inductive StreamEventType where
  | text
  | reasoning
  | toolUse
  | toolResult
  | error
  | finished
deriving DecidableEq, Repr

/-- StreamEvent from assistants/base.py: type, optional content and a
metadata dict.  Content stays a raw JSON value because the Python code
never checks its type at construction time. -/
structure StreamEvent where
  type : StreamEventType
  content : Option JValue := none
  metadata : List (PyStr × JValue) := []

/-- Attribute access data.get(...) on a decoded JSON value: only objects
(Python dicts) have a get method. -/
def asDict (v : JValue) : Except PyErr (List (PyStr × JValue)) :=
  match v with
  | .jobj fields => .ok fields
  | _ => .error .attributeError

/-- Python v.lower(): only strings have it. -/
def asStrLower (v : JValue) : Except PyErr PyStr :=
  match v with
  | .jstr s => .ok (pyLower s)
  | _ => .error .attributeError

/-- Python str() of a decoded JSON value as used in an f-string.  Exact for
strings, which is the only case the source exercises in practice; other
values get a basic rendering. -/
def pyToStr (v : JValue) : PyStr :=
  match v with
  | .jstr s => s
  | .jnull => "None".data
  | .jbool true => "True".data
  | .jbool false => "False".data
  | .jnum n => (toString n).data
  | .jfloat (.finite q) => (toString q.num).data ++ "/".data ++ (toString q.den).data
  | .jfloat .nan => "nan".data
  | .jfloat .inf => "inf".data
  | .jfloat .ninf => "-inf".data
  | .jarr _ => "[...]".data
  | .jobj _ => "\x7b...\x7d".data

/-- Python value += string: a TypeError unless the value is a string. -/
def pyAddStr (v : JValue) (s : PyStr) : Except PyErr JValue :=
  match v with
  | .jstr a => .ok (.jstr (a ++ s))
  | _ => .error .typeError

namespace OpenCodeAssistant

/-- OpenCodeAssistant.parse_line from assistants/opencode.py.  Only
json.JSONDecodeError is caught (falling back to a Text event carrying the
raw line); attribute errors from non-object JSON or ill-typed fields
escape. -/
def parse_line (line : PyStr) : Except PyErr (Option StreamEvent) :=
  match jsonLoads line with
  | none => .ok (some { type := .text, content := some (.jstr line) })
  | some data => do
    let fields ← asDict data
    let t ← asStrLower (pyDictGet fields "type".data (.jstr []))
    let part := pyDictGet fields "part".data (.jobj [])
    if t = "reasoning".data then do
      let p ← asDict part
      return some { type := .reasoning, content := some (pyDictGet p "text".data (.jstr [])) }
    else if t = "text".data then do
      let p ← asDict part
      return some { type := .text, content := some (pyDictGet p "text".data (.jstr [])) }
    else if t = "tool_use".data then do
      let p ← asDict part
      return some { type := .toolUse,
                    metadata := [("name".data, pyDictGet p "name".data (.jstr "tool".data)),
                                 ("input".data, pyDictGet p "input".data (.jstr []))] }
    else if t = "tool_result".data then do
      let p ← asDict part
      return some { type := .toolResult, content := some (pyDictGet p "output".data (.jstr [])) }
    else
      return none

end OpenCodeAssistant

namespace GeminiAssistant

/-- GeminiAssistant.parse_line from assistants/gemini.py. -/
def parse_line (line : PyStr) : Except PyErr (Option StreamEvent) :=
  match jsonLoads line with
  | none => .ok (some { type := .text, content := some (.jstr line) })
  | some data => do
    let fields ← asDict data
    let t ← asStrLower (pyDictGet fields "type".data (.jstr []))
    if t = "message".data then
      let content := pyDictGet fields "content".data (.jstr [])
      let isDelta := pyDictGet fields "delta".data (.jbool false)
      let role := pyDictGetOpt fields "role".data
      let roleIsAssistant : Bool :=
        match role with
        | some (.jstr s) => s == "assistant".data
        | _ => false
      let evType : StreamEventType :=
        if roleIsAssistant && pyTruthy isDelta then .reasoning else .text
      return some { type := evType, content := some content }
    else if t = "tool_use".data then
      return some { type := .toolUse,
                    metadata := [("name".data, pyDictGet fields "tool_name".data (.jstr "tool".data)),
                                 ("input".data, pyDictGet fields "parameters".data (.jstr []))] }
    else if t = "tool_result".data then do
      let outv := pyDictGet fields "output".data .jnull
      let resText : JValue := if pyTruthy outv then outv else .jstr []
      let errv := pyDictGet fields "error".data .jnull
      if pyTruthy errv then do
        let errd ← asDict errv
        let msg := pyDictGet errd "message".data (.jstr "Unknown error".data)
        let resText2 ← pyAddStr resText ("\n".data ++ "Error: ".data ++ pyToStr msg)
        return some { type := .toolResult, content := some resText2 }
      else
        return some { type := .toolResult, content := some resText }
    else if t = "result".data then
      return some { type := .finished }
    else
      return none

/-- GeminiAssistant.rotate_model state: the fixed ordered model list and the
current model. -/
structure ModelState where
  models : List PyStr
  current : PyStr

/-- GeminiAssistant.rotate_model from assistants/gemini.py: advance to the
next model, returning whether a rotation happened.  A current model missing
from the list (the ValueError branch) resets to the first model, raising
IndexError when the list is empty. -/
def rotate_model (s : ModelState) : Except PyErr (Bool × ModelState) :=
  if h : s.current ∈ s.models then
    let i := s.models.indexOf s.current
    if h2 : i < s.models.length - 1 then
      .ok (true, { s with current := s.models.get ⟨i + 1, by omega⟩ })
    else
      .ok (false, s)
  else
    match s.models with
    | [] => .error .indexError
    | m :: _ => .ok (true, { s with current := m })

end GeminiAssistant

/-- CodingAssistant.is_rate_limit_error from assistants/base.py: keyword
classification over the lower-cased stderr blob. -/
def is_rate_limit_error (stderr : PyStr) : Bool :=
  let low := pyLower stderr
  ["429", "401", "402", "rate limit", "unauthorized", "quota"].any
    (fun e => containsSub e.data low)

namespace StreamOrchestrator

/-- Mutable read-loop state of StreamOrchestrator.run_streaming that is
observable in the final result: the accumulated output, the token counter
and the last seen event type (progress headers, timers and logging have no
effect on the result and are not tracked). -/
structure LoopState where
  output_buffer : PyStr
  token_count : Nat
  last_event_type : Option StreamEventType
  last_tool_name : JValue

/-- Loop state at the start of one invocation attempt. -/
def initLoopState : LoopState :=
  { output_buffer := [], token_count := 0, last_event_type := none,
    last_tool_name := .jstr "tool".data }

/-- Python buffer += event.content: a TypeError unless the content is a
string. -/
def appendContent (buf : PyStr) (v : JValue) : Except PyErr PyStr :=
  match v with
  | .jstr s => .ok (buf ++ s)
  | _ => .error .typeError

/-- One stdout event dispatch from llm_orchestrator.py lines 376-446.
Reasoning events count a token and append truthy content; Text events
append truthy content (the source does not update last_event_type here);
ToolUse records the tool name; ToolResult appends truthy content.  Error
and Finished events have no branch and are ignored. -/
def processEvent (st : LoopState) (ev : StreamEvent) : Except PyErr LoopState :=
  match ev.type with
  | .reasoning =>
    let st1 := { st with token_count := st.token_count + 1 }
    let st2 :=
      if st1.last_event_type ≠ some StreamEventType.reasoning then
        { st1 with last_event_type := some .reasoning }
      else st1
    match ev.content with
    | some c =>
      if pyTruthy c then
        match appendContent st2.output_buffer c with
        | .ok buf => .ok { st2 with output_buffer := buf }
        | .error e => .error e
      else .ok st2
    | none => .ok st2
  | .text =>
    match ev.content with
    | some c =>
      if pyTruthy c then
        match appendContent st.output_buffer c with
        | .ok buf => .ok { st with output_buffer := buf }
        | .error e => .error e
      else .ok st
    | none => .ok st
  | .toolUse =>
    let name := pyDictGet ev.metadata "name".data (.jstr "tool".data)
    .ok { st with last_tool_name := name, last_event_type := some .toolUse }
  | .toolResult =>
    match ev.content with
    | some c =>
      if pyTruthy c then
        match appendContent st.output_buffer c with
        | .ok buf => .ok { st with output_buffer := buf,
                                   last_event_type := some .toolResult }
        | .error e => .error e
      else .ok { st with last_event_type := some .toolResult }
    | none => .ok { st with last_event_type := some .toolResult }
  | .error => .ok st
  | .finished => .ok st

/-- Handling of one raw stdout line: decode, strip, parse, dispatch; a
parse result of None is dropped and a parse exception propagates. -/
def processLine (parse : PyStr → Except PyErr (Option StreamEvent))
    (st : LoopState) (line : PyStr) : Except PyErr LoopState :=
  match parse (pyStrip line) with
  | .error e => .error e
  | .ok none => .ok st
  | .ok (some ev) => processEvent st ev

/-- The stdout read loop over the lines the process emitted. -/
def runReadLoop (parse : PyStr → Except PyErr (Option StreamEvent))
    (st : LoopState) : List PyStr → Except PyErr LoopState
  | [] => .ok st
  | line :: rest =>
    match processLine parse st line with
    | .error e => .error e
    | .ok st2 => runReadLoop parse st2 rest

/-- The stderr accumulation: each line is stripped and appended with a
trailing newline. -/
def accumStderr (lines : List PyStr) : PyStr :=
  lines.foldl (fun acc l => acc ++ pyStrip l ++ "\n".data) []

/-- Single escape characters matched by the first alternative of the ANSI
regex: the class from x40 to x5A joined with the class from x5C to x5F. -/
def isAnsiFe (c : Char) : Bool :=
  (0x40 ≤ c.toNat && c.toNat ≤ 0x5A) || (0x5C ≤ c.toNat && c.toNat ≤ 0x5F)

/-- CSI parameter bytes x30 to x3F. -/
def isCsiParam (c : Char) : Bool := 0x30 ≤ c.toNat && c.toNat ≤ 0x3F

/-- CSI intermediate bytes x20 to x2F. -/
def isCsiInter (c : Char) : Bool := 0x20 ≤ c.toNat && c.toNat ≤ 0x2F

/-- CSI final bytes x40 to x7E. -/
def isCsiFinal (c : Char) : Bool := 0x40 ≤ c.toNat && c.toNat ≤ 0x7E

/-- StreamOrchestrator._strip_ansi: delete every match of the ANSI escape
regex, scanning left to right; an escape character that does not start a
full match is kept.  Fuel-bounded (the fuel is the input length, and every
step consumes at least one character). -/
def stripAnsiFuel : Nat → PyStr → PyStr
  | 0, s => s
  | fuel + 1, s =>
    match s with
    | [] => []
    | c :: rest =>
      if c = '\x1b' then
        match rest with
        | [] => [c]
        | d :: rest2 =>
          if d = '[' then
            let r3 := rest2.dropWhile isCsiParam
            let r4 := r3.dropWhile isCsiInter
            match r4 with
            | e :: r5 => if isCsiFinal e then stripAnsiFuel fuel r5 else c :: stripAnsiFuel fuel rest
            | [] => c :: stripAnsiFuel fuel rest
          else if isAnsiFe d then stripAnsiFuel fuel rest2
          else c :: stripAnsiFuel fuel rest
      else c :: stripAnsiFuel fuel rest

/-- StreamOrchestrator._strip_ansi. -/
def strip_ansi (s : PyStr) : PyStr := stripAnsiFuel s.length s

/-- StreamOrchestrator._detect_question from llm_orchestrator.py lines
579-585: look at the last five lines of the trimmed text and return the
most recent stripped line containing a question mark whose stripped length
exceeds ten. -/
def detect_question (text : PyStr) : Option PyStr :=
  let lines := splitNl (pyStrip text)
  let lastLines := if lines.length ≥ 5 then lastN 5 lines else lines
  let questionLines :=
    (lastLines.filter
      (fun l => containsSub "?".data l && decide ((pyStrip l).length > 10))).map pyStrip
  questionLines.getLast?

/-- Failure outcomes of one streaming invocation. -/
inductive RunError where
  | emptyOutput : RunError
  | pyExc (e : PyErr) : RunError
deriving DecidableEq, Repr

/-- The observable fields of StreamingResult (core/interfaces.py): the
identity fields assistant_name and model_name and the free-form metadata
dict are omitted; the question copied into metadata is kept as
metadataQuestion. -/
structure StreamingResultM where
  output : PyStr
  tokens : Nat
  question : Option PyStr
  metadataQuestion : Option PyStr
deriving DecidableEq, Repr

/-- Finishing an attempt after the rotation decision declined to retry
(llm_orchestrator.py lines 517-555): the empty-output guard raises
RuntimeError when no token was counted and the buffer strips to nothing;
otherwise ANSI codes are stripped, the clarifying question detected, and
the StreamingResult built. -/
def finishAttempt (st : LoopState) : Except RunError StreamingResultM :=
  if st.token_count = 0 && (pyStrip st.output_buffer).isEmpty then
    .error .emptyOutput
  else
    let cleanOutput := strip_ansi (pyStrip st.output_buffer)
    let question := detect_question cleanOutput
    .ok { output := cleanOutput, tokens := st.token_count, question := question,
          metadataQuestion := question }

/-- One attempt of the outer retry loop as seen by the orchestrator: the
stdout lines, the stderr lines and the exit code of the spawned process. -/
structure Attempt where
  stdout : List PyStr
  stderr : List PyStr
  returncode : Int

/-- Result of processing one attempt: retry after a successful model
rotation, or a terminal outcome. -/
inductive StepRes where
  | retry : StepRes
  | done (r : Except RunError StreamingResultM) : StepRes

/-- One iteration of the while True loop of run_streaming, generic over
the assistant: run the read loop, then decide on rotation (exit code
non-zero, stderr classified as rate limit, rotation succeeded), else fall
through to the finishing code. -/
def stepAttempt {σ : Type} (parse : PyStr → Except PyErr (Option StreamEvent))
    (rotate : σ → Except PyErr (Bool × σ)) (s : σ) (a : Attempt) : σ × StepRes :=
  match runReadLoop parse initLoopState a.stdout with
  | .error e => (s, .done (.error (.pyExc e)))
  | .ok st =>
    if a.returncode ≠ 0 ∧ is_rate_limit_error (accumStderr a.stderr) = true then
      match rotate s with
      | .ok (true, s2) => (s2, .retry)
      | .ok (false, s2) => (s2, .done (finishAttempt st))
      | .error e => (s, .done (.error (.pyExc e)))
    else
      (s, .done (finishAttempt st))

/-- The while True loop of run_streaming, driven by the list of attempt
outcomes the environment produces: returns the number of attempts
performed and the terminal outcome, or none when the environment list is
exhausted while another attempt would start. -/
def runLoop {σ : Type} (parse : PyStr → Except PyErr (Option StreamEvent))
    (rotate : σ → Except PyErr (Bool × σ)) :
    σ → List Attempt → Option (Nat × Except RunError StreamingResultM)
  | _, [] => none
  | s, a :: rest =>
    match stepAttempt parse rotate s a with
    | (s2, .retry) =>
      match runLoop parse rotate s2 rest with
      | some (k, r) => some (k + 1, r)
      | none => none
    | (_, .done r) => some (1, r)

/-- OpenCodeAssistant does not override rotate_model, so the base-class
version applies: it never rotates. -/
def opencodeRotate : Unit → Except PyErr (Bool × Unit) := fun u => .ok (false, u)

/-- run_streaming with the OpenCode assistant on a single attempt: with
the base-class rotate_model the loop never retries. -/
def run_streaming_opencode (stdout stderr : List PyStr) (rc : Int) :
    Option (Nat × Except RunError StreamingResultM) :=
  runLoop OpenCodeAssistant.parse_line opencodeRotate () [⟨stdout, stderr, rc⟩]

/-- run_streaming with the Gemini assistant, whose rotate_model advances
through its fixed model list. -/
def run_streaming_gemini (s : GeminiAssistant.ModelState) (attempts : List Attempt) :
    Option (Nat × Except RunError StreamingResultM) :=
  runLoop GeminiAssistant.parse_line GeminiAssistant.rotate_model s attempts

end StreamOrchestrator

/-- ProcessingStage from progress.py. -/
inductive ProcessingStage where
  | idle
  | compressing
  | invokingAssistant
  | thinking
  | writing
  | toolExecution
  | executingCode
  | summarizing
  | complete
  | error
deriving DecidableEq, Repr

namespace ProgressEstimator

/-- The _stage_weights dict of ProgressEstimator.__init__, in insertion
order.  Python floats are modeled as rationals. -/
def stage_weights : List (ProcessingStage × ℚ) :=
  [(.compressing, 10/100), (.invokingAssistant, 10/100), (.thinking, 25/100),
   (.writing, 25/100), (.toolExecution, 15/100), (.executingCode, 10/100),
   (.summarizing, 5/100)]

/-- The _base_durations dict of ProgressEstimator.__init__ (seconds). -/
def base_durations : List (ProcessingStage × ℚ) :=
  [(.compressing, 30), (.invokingAssistant, 10), (.thinking, 45),
   (.writing, 45), (.toolExecution, 25), (.executingCode, 45),
   (.summarizing, 15)]

/-- Python dict.get(key, default) over an association list with distinct
keys in insertion order. -/
def lookupD (l : List (ProcessingStage × ℚ)) (k : ProcessingStage) (dflt : ℚ) : ℚ :=
  match l.find? (fun kv => kv.1 = k) with
  | some kv => kv.2
  | none => dflt

/-- The completed-weight loop of get_progress: iterate the weights dict in
insertion order, summing until the current stage is reached. -/
def completedWeight (l : List (ProcessingStage × ℚ)) (cur : ProcessingStage) : ℚ :=
  match l with
  | [] => 0
  | (s, w) :: rest => if s = cur then 0 else w + completedWeight rest cur

/-- The progress fraction computed by ProgressEstimator.get_progress for a
given current stage, duration table and elapsed time (time.time() minus the
stage start, passed as a parameter).  With no current stage the reported
progress is zero.  When elapsed or the base duration is not positive the
stage progress falls back to one half. -/
def get_progress_fraction (cur : Option ProcessingStage)
    (durations : List (ProcessingStage × ℚ)) (elapsed : ℚ) : ℚ :=
  match cur with
  | none => 0
  | some stage =>
    let completed := completedWeight stage_weights stage
    let currentWeight := lookupD stage_weights stage (10/100)
    let baseDuration := lookupD durations stage 30
    let stageProgress :=
      if 0 < elapsed && 0 < baseDuration then min 1 (elapsed / baseDuration)
      else 1/2
    min 1 (completed + currentWeight * stageProgress)

/-- Extracted prompt features of analyze_prompt_complexity: word count,
fenced-code-block count, language-keyword presence and file-reference
count.  The regular expressions that extract these from the prompt string
are abstracted: quantifying over all feature values covers every prompt. -/
structure PromptFeatures where
  word_count : ℕ
  code_blocks : ℕ
  has_tech_keywords : Bool
  file_refs : ℕ

/-- The complexity score of analyze_prompt_complexity: a weighted blend of
the four capped components. -/
def complexity_score (f : PromptFeatures) : ℚ :=
  min 1 ((f.word_count : ℚ) / 100) * (30/100)
    + min 1 ((f.code_blocks : ℚ) / 5) * (30/100)
    + (if f.has_tech_keywords then 20/100 else 0)
    + min 1 ((f.file_refs : ℚ) / 10) * (20/100)

/-- ProgressEstimator._complexity_label. -/
def complexity_label (score : ℚ) : String :=
  if score < 2/10 then "simple"
  else if score < 4/10 then "moderate"
  else if score < 6/10 then "complex"
  else "very complex"

/-- The complexity multiplier applied to the estimated total duration. -/
def complexity_multiplier (score : ℚ) : ℚ := 1 + score * (5/10)

/-- The estimated duration reported by analyze_prompt_complexity. -/
def estimated_duration (f : PromptFeatures) (baseTotal : ℚ) : ℚ :=
  baseTotal * complexity_multiplier (complexity_score f)

end ProgressEstimator

namespace ObservabilityHub

/-- An asyncio.Queue with its bound: maxsize zero or less means unbounded. -/
structure AQueue (α : Type) where
  maxsize : ℕ
  items : List α

/-- Exceptions of the non-blocking queue operations. -/
inductive QErr where
  | queueFull
  | queueEmpty
deriving DecidableEq, Repr

/-- asyncio.Queue.put_nowait: raises QueueFull when a bounded queue is at
capacity, else appends at the back. -/
def put_nowait {α : Type} (q : AQueue α) (e : α) : Except QErr (AQueue α) :=
  if 0 < q.maxsize && q.maxsize ≤ q.items.length then .error .queueFull
  else .ok { q with items := q.items ++ [e] }

/-- asyncio.Queue.get_nowait: raises QueueEmpty on an empty queue, else
removes the front (oldest) element. -/
def get_nowait {α : Type} (q : AQueue α) : Except QErr (α × AQueue α) :=
  match q.items with
  | [] => .error .queueEmpty
  | x :: rest => .ok (x, { q with items := rest })

/-- The per-queue body of ObservabilityHub.publish (observability/hub.py
lines 19-31): try to enqueue; on QueueFull drop the oldest element
(ignoring QueueEmpty) and retry once, giving up silently if still full.
Every exception is caught, so the publisher sees a total function. -/
def publishToQueue {α : Type} (q : AQueue α) (e : α) : AQueue α :=
  match put_nowait q e with
  | .ok q2 => q2
  | .error _ =>
    let q2 := match get_nowait q with
      | .ok (_, qq) => qq
      | .error _ => q
    match put_nowait q2 e with
    | .ok q3 => q3
    | .error _ => q2

/-- ObservabilityHub.publish over the snapshot of subscriber queues. -/
def publish {α : Type} (queues : List (AQueue α)) (e : α) : List (AQueue α) :=
  queues.map (fun q => publishToQueue q e)

end ObservabilityHub

namespace StreamOrchestrator

/-- The question detector as the claim words it, for comparison: the
window is the last five NON-EMPTY lines, the most recent line in it that
contains a question mark and whose stripped form is longer than ten wins. -/
def detect_question_claim_window (text : PyStr) : Option PyStr :=
  let lines := splitNl (pyStrip text)
  let window := lastN 5 (lines.filter (fun l => ¬ l.isEmpty))
  (window.reverse.find?
    (fun l => containsSub "?".data l && decide ((pyStrip l).length > 10))).map pyStrip

/-- The question detector as the amended claim words it: the window is the
last five lines of the trimmed text, empty lines included; scanning from
the most recent, the first line containing a question mark whose stripped
form is longer than ten characters is returned stripped. -/
def detect_question_spec (text : PyStr) : Option PyStr :=
  let window := lastN 5 (splitNl (pyStrip text))
  (window.reverse.find?
    (fun l => containsSub "?".data l && decide ((pyStrip l).length > 10))).map pyStrip

/-- The number of stdout lines that decode to a Reasoning stream event. -/
def reasoningCount (stdout : List PyStr) : ℕ :=
  stdout.countP (fun line =>
    match OpenCodeAssistant.parse_line (pyStrip line) with
    | .ok (some ev) => ev.type == .reasoning
    | _ => false)

/-- An attempt whose process ran to a non-zero exit classified as a rate
limit, with stdout lines that decode without raising: the situation the
rotation-bound claim quantifies over. -/
def rateLimitFailing (a : Attempt) : Prop :=
  a.returncode ≠ 0 ∧ is_rate_limit_error (accumStderr a.stderr) = true ∧
    (runReadLoop GeminiAssistant.parse_line initLoopState a.stdout).isOk = true

instance : DecidablePred rateLimitFailing := by
  unfold rateLimitFailing
  infer_instance

/-- The terminal outcome the fall-through code produces for an attempt
when no rotation is available: the empty-output guard fires exactly when
the attempt produced no token and only whitespace output, else the
accumulated output is returned as a normal result. -/
def attemptFinal (a : Attempt) : Except RunError StreamingResultM :=
  match runReadLoop GeminiAssistant.parse_line initLoopState a.stdout with
  | .ok st => finishAttempt st
  | .error e => .error (.pyExc e)

end StreamOrchestrator

/-! Helper lemmas about the list-level string primitives. -/

theorem getLast?_mem_of {α : Type} {l : List α} {a : α} (h : l.getLast? = some a) :
    a ∈ l := by
  obtain ⟨hne, heq⟩ := List.mem_getLast?_eq_getLast (show a ∈ l.getLast? from h)
  subst heq
  exact List.getLast_mem hne

theorem containsSub_singleton {c : Char} {l : PyStr} :
    containsSub [c] l = true ↔ c ∈ l := by
  induction l with
  | nil => simp [containsSub]
  | cons a rest ih =>
    simp only [containsSub, List.isPrefixOf, Bool.or_eq_true, Bool.and_eq_true,
      beq_iff_eq, List.mem_cons, ih]
    tauto

theorem mem_dropWhile_of_mem {c : Char} {p : Char → Bool} {l : PyStr}
    (hc : c ∈ l) (hp : p c = false) : c ∈ l.dropWhile p := by
  have hsplit : l.takeWhile p ++ l.dropWhile p = l := List.takeWhile_append_dropWhile p l
  rw [← hsplit] at hc
  rcases List.mem_append.mp hc with h | h
  · exact absurd (List.mem_takeWhile_imp h) (by simp [hp])
  · exact h

theorem mem_pyStrip_of_mem {c : Char} {l : PyStr} (hc : c ∈ l)
    (hp : isPySpace c = false) : c ∈ pyStrip l := by
  unfold pyStrip
  have h1 : c ∈ l.dropWhile isPySpace := mem_dropWhile_of_mem hc hp
  have h2 : c ∈ (l.dropWhile isPySpace).reverse := List.mem_reverse.mpr h1
  have h3 : c ∈ (l.dropWhile isPySpace).reverse.dropWhile isPySpace :=
    mem_dropWhile_of_mem h2 hp
  exact List.mem_reverse.mpr h3

theorem filter_getLast?_eq_find?_reverse {α : Type} (p : α → Bool) (l : List α) :
    (l.filter p).getLast? = l.reverse.find? p := by
  induction l using List.reverseRecOn with
  | nil => simp
  | append_singleton xs a ih =>
    rw [List.filter_append, List.reverse_append]
    simp only [List.filter, List.reverse_singleton, List.singleton_append, List.find?]
    cases hp : p a
    · simp [hp, ih]
    · simp [hp, List.getLast?_concat]

/-! C2: decode-line safety. -/

/-- C2 counterexample: the lines holding two brackets, a float literal and
the NaN constant are all valid JSON but not objects; json.loads succeeds,
then data.get raises AttributeError in both providers, which no handler
catches. -/
theorem c2_counterexample :
    OpenCodeAssistant.parse_line "[]".data = .error .attributeError ∧
    GeminiAssistant.parse_line "[]".data = .error .attributeError ∧
    OpenCodeAssistant.parse_line "1.5".data = .error .attributeError ∧
    GeminiAssistant.parse_line "NaN".data = .error .attributeError := by
  refine ⟨?_, ?_, ?_, ?_⟩ <;> rfl

/-- C2 (amended): for every input line that is not valid JSON, both
providers degrade to a Text event whose content is the raw line, without
raising; a decode failure never terminates the stream. -/
theorem c2_non_json_degrades_to_text (line : PyStr) (h : jsonLoads line = none) :
    OpenCodeAssistant.parse_line line
        = .ok (some { type := .text, content := some (.jstr line) }) ∧
    GeminiAssistant.parse_line line
        = .ok (some { type := .text, content := some (.jstr line) }) := by
  constructor
  · unfold OpenCodeAssistant.parse_line
    rw [h]
  · unfold GeminiAssistant.parse_line
    rw [h]

/-- C2 witness at the concrete non-JSON lines hello world and 01 (a
leading-zero numeral, which json.loads rejects with extra data left
over). -/
theorem c2_witness :
    jsonLoads "hello world".data = none ∧
    OpenCodeAssistant.parse_line "hello world".data
        = .ok (some { type := .text, content := some (.jstr "hello world".data) }) ∧
    GeminiAssistant.parse_line "hello world".data
        = .ok (some { type := .text, content := some (.jstr "hello world".data) }) ∧
    jsonLoads "01".data = none ∧
    OpenCodeAssistant.parse_line "01".data
        = .ok (some { type := .text, content := some (.jstr "01".data) }) ∧
    GeminiAssistant.parse_line "01".data
        = .ok (some { type := .text, content := some (.jstr "01".data) }) :=
  ⟨rfl, (c2_non_json_degrades_to_text "hello world".data rfl).1,
    (c2_non_json_degrades_to_text "hello world".data rfl).2,
    rfl, (c2_non_json_degrades_to_text "01".data rfl).1,
    (c2_non_json_degrades_to_text "01".data rfl).2⟩

namespace StreamOrchestrator

/-! C3: empty-output guard. -/

/-- C3: when the process exits 0 but the read loop counted zero tokens and
the accumulated buffer strips to nothing, the orchestrator ends in the
empty-output failure (a raised RuntimeError), not a successful result. -/
theorem c3_empty_output_guard (stdout stderr : List PyStr) (st : LoopState)
    (hread : runReadLoop OpenCodeAssistant.parse_line initLoopState stdout = .ok st)
    (htok : st.token_count = 0) (hbuf : pyStrip st.output_buffer = []) :
    run_streaming_opencode stdout stderr 0 = some (1, .error .emptyOutput) := by
  unfold run_streaming_opencode runLoop stepAttempt
  rw [hread]
  simp [finishAttempt, htok, hbuf]

/-- C3 witness: a run with no stdout at all trips the guard. -/
theorem c3_witness :
    runReadLoop OpenCodeAssistant.parse_line initLoopState [] = .ok initLoopState ∧
    initLoopState.token_count = 0 ∧ pyStrip initLoopState.output_buffer = [] ∧
    run_streaming_opencode [] [] 0 = some (1, .error .emptyOutput) :=
  ⟨rfl, rfl, rfl, c3_empty_output_guard [] [] initLoopState rfl rfl rfl⟩

/-! C7: scenario A. -/

/-- C7 counterexample: on the exact line of the claim the OpenCode decoder
reads the text from the part object, which is absent, so the event content
is empty, the buffer stays empty and the run raises the empty-output
failure instead of returning hello. -/
theorem c7_counterexample :
    run_streaming_opencode ["\x7b\"type\":\"text\",\"content\":\"hello\"\x7d".data] [] 0
      = some (1, .error .emptyOutput) := by
  rfl

/-- C7 (amended): with the OpenCode line shape, carrying the text inside
the part object, the run returns output hello, zero tokens and no
question. -/
theorem c7_scenario_a_amended :
    run_streaming_opencode ["\x7b\"type\":\"text\",\"part\":\x7b\"text\":\"hello\"\x7d\x7d".data] [] 0
      = some (1, .ok { output := "hello".data, tokens := 0, question := none,
                       metadataQuestion := none }) := by
  rfl

end StreamOrchestrator

/-! C5: observability hub publish. -/

namespace ObservabilityHub

/-- C5: publish is a total function toward the publisher (it can neither
block nor raise), and on a full bounded queue it drops the oldest element
to make room for the newest: a queue holding items e1..en at capacity n
afterwards holds e2..en followed by the published event. -/
theorem c5_publish_drops_oldest {α : Type} (qs : List (AQueue α)) (e : α)
    (q : AQueue α) (hq : q ∈ qs) (hmax : 0 < q.maxsize)
    (hfull : q.items.length = q.maxsize) :
    publishToQueue q e = { q with items := q.items.tail ++ [e] } ∧
    { q with items := q.items.tail ++ [e] } ∈ publish qs e := by
  have hmain : publishToQueue q e = { q with items := q.items.tail ++ [e] } := by
    cases hitems : q.items with
    | nil =>
      rw [hitems] at hfull
      simp at hfull
      omega
    | cons x rest =>
      have hlen : rest.length + 1 = q.maxsize := by
        have h := hfull
        rw [hitems] at h
        simpa using h
      unfold publishToQueue put_nowait get_nowait
      rw [hitems]
      have hc1 : q.maxsize ≤ (x :: rest).length := by simp; omega
      have hc2 : ¬ q.maxsize ≤ rest.length := by omega
      have hc3 : q.maxsize ≤ rest.length + 1 := by omega
      simp [hmax, hc1, hc2, hc3]
  refine ⟨hmain, ?_⟩
  have : publishToQueue q e ∈ publish qs e := List.mem_map_of_mem _ hq
  rwa [hmain] at this

/-- C5 witness: a full two-element queue of naturals. -/
theorem c5_witness :
    (⟨2, [1, 2]⟩ : AQueue ℕ) ∈ [(⟨2, [1, 2]⟩ : AQueue ℕ)] ∧
    publishToQueue (⟨2, [1, 2]⟩ : AQueue ℕ) 3 = ⟨2, [2, 3]⟩ ∧
    (⟨2, [2, 3]⟩ : AQueue ℕ) ∈ publish [(⟨2, [1, 2]⟩ : AQueue ℕ)] 3 := by
  have h := c5_publish_drops_oldest [(⟨2, [1, 2]⟩ : AQueue ℕ)] 3 ⟨2, [1, 2]⟩
    (by simp) (by norm_num) (by norm_num)
  exact ⟨by simp, h.1, h.2⟩

end ObservabilityHub

/-! C8: prompt complexity bounds. -/

namespace ProgressEstimator

/-- C8: for every prompt (every feature vector), the complexity score lies
in the unit interval, the label is one of the four discrete labels, and
the ETA multiplier lies between 1 and 1.5, so for a non-negative base
estimate the scaled duration is between the base and one and a half times
the base. -/
theorem c8_complexity_bounds (f : PromptFeatures) (base : ℚ) (hbase : 0 ≤ base) :
    0 ≤ complexity_score f ∧ complexity_score f ≤ 1 ∧
    (complexity_label (complexity_score f) = "simple" ∨
     complexity_label (complexity_score f) = "moderate" ∨
     complexity_label (complexity_score f) = "complex" ∨
     complexity_label (complexity_score f) = "very complex") ∧
    1 ≤ complexity_multiplier (complexity_score f) ∧
    complexity_multiplier (complexity_score f) ≤ 3/2 ∧
    base ≤ estimated_duration f base ∧
    estimated_duration f base ≤ 3/2 * base := by
  have hw0 : (0 : ℚ) ≤ min 1 ((f.word_count : ℚ) / 100) := le_min (by norm_num) (by positivity)
  have hw1 : min 1 ((f.word_count : ℚ) / 100) ≤ 1 := min_le_left _ _
  have hc0 : (0 : ℚ) ≤ min 1 ((f.code_blocks : ℚ) / 5) := le_min (by norm_num) (by positivity)
  have hc1 : min 1 ((f.code_blocks : ℚ) / 5) ≤ 1 := min_le_left _ _
  have hf0 : (0 : ℚ) ≤ min 1 ((f.file_refs : ℚ) / 10) := le_min (by norm_num) (by positivity)
  have hf1 : min 1 ((f.file_refs : ℚ) / 10) ≤ 1 := min_le_left _ _
  have hscore0 : 0 ≤ complexity_score f := by
    unfold complexity_score
    cases f.has_tech_keywords <;> simp <;> nlinarith
  have hscore1 : complexity_score f ≤ 1 := by
    unfold complexity_score
    cases f.has_tech_keywords <;> simp <;> nlinarith
  have hlabel : complexity_label (complexity_score f) = "simple" ∨
      complexity_label (complexity_score f) = "moderate" ∨
      complexity_label (complexity_score f) = "complex" ∨
      complexity_label (complexity_score f) = "very complex" := by
    unfold complexity_label
    split_ifs <;> tauto
  have hm1 : 1 ≤ complexity_multiplier (complexity_score f) := by
    unfold complexity_multiplier; nlinarith
  have hm2 : complexity_multiplier (complexity_score f) ≤ 3/2 := by
    unfold complexity_multiplier; nlinarith
  refine ⟨hscore0, hscore1, hlabel, hm1, hm2, ?_, ?_⟩
  · unfold estimated_duration
    nlinarith
  · unfold estimated_duration
    nlinarith

/-- C8 witness at the empty prompt features and base estimate 100. -/
theorem c8_witness :
    (0 : ℚ) ≤ 100 ∧
    (0 ≤ complexity_score ⟨0, 0, false, 0⟩ ∧ complexity_score ⟨0, 0, false, 0⟩ ≤ 1 ∧
     (complexity_label (complexity_score ⟨0, 0, false, 0⟩) = "simple" ∨
      complexity_label (complexity_score ⟨0, 0, false, 0⟩) = "moderate" ∨
      complexity_label (complexity_score ⟨0, 0, false, 0⟩) = "complex" ∨
      complexity_label (complexity_score ⟨0, 0, false, 0⟩) = "very complex") ∧
     1 ≤ complexity_multiplier (complexity_score ⟨0, 0, false, 0⟩) ∧
     complexity_multiplier (complexity_score ⟨0, 0, false, 0⟩) ≤ 3/2 ∧
     (100 : ℚ) ≤ estimated_duration ⟨0, 0, false, 0⟩ 100 ∧
     estimated_duration ⟨0, 0, false, 0⟩ 100 ≤ 3/2 * 100) :=
  ⟨by norm_num, c8_complexity_bounds ⟨0, 0, false, 0⟩ 100 (by norm_num)⟩

end ProgressEstimator

/-! Dissection lemmas for single-attempt OpenCode runs. -/

namespace StreamOrchestrator

theorem processEvent_tokens (st : LoopState) (ev : StreamEvent) (st2 : LoopState)
    (h : processEvent st ev = .ok st2) :
    st2.token_count = st.token_count
      + (if ev.type = StreamEventType.reasoning then 1 else 0) := by
  unfold processEvent at h
  cases hty : ev.type <;> rw [hty] at h <;> dsimp only [] at h <;>
    simp only [hty, reduceCtorEq, if_false, if_pos rfl] <;>
    (try split at h) <;> (try split at h) <;> (try split at h) <;>
    (cases h) <;> (try split) <;> simp_all

theorem processLine_tokens (st st1 : LoopState) (line : PyStr)
    (h : processLine OpenCodeAssistant.parse_line st line = .ok st1) :
    st1.token_count = st.token_count
      + (if (match OpenCodeAssistant.parse_line (pyStrip line) with
             | .ok (some ev) => ev.type == StreamEventType.reasoning
             | _ => false) = true then 1 else 0) := by
  unfold processLine at h
  cases hp : OpenCodeAssistant.parse_line (pyStrip line) with
  | error e => rw [hp] at h; cases h
  | ok oev =>
    rw [hp] at h
    cases oev with
    | none =>
      cases h
      simp
    | some ev =>
      have hstep := processEvent_tokens st ev st1 h
      rw [hstep]
      by_cases hr : ev.type = StreamEventType.reasoning <;> simp [hr]

theorem runReadLoop_tokens (lines : List PyStr) : ∀ st0 st : LoopState,
    runReadLoop OpenCodeAssistant.parse_line st0 lines = .ok st →
    st.token_count = st0.token_count + reasoningCount lines := by
  induction lines with
  | nil =>
    intro st0 st h
    cases h
    simp [reasoningCount]
  | cons line rest ih =>
    intro st0 st h
    unfold runReadLoop at h
    cases hpl : processLine OpenCodeAssistant.parse_line st0 line with
    | error e => rw [hpl] at h; cases h
    | ok st1 =>
      rw [hpl] at h
      have htail := ih st1 st h
      have hstep := processLine_tokens st0 st1 line hpl
      rw [htail, hstep, reasoningCount, reasoningCount, List.countP_cons]
      split <;> omega

theorem stepAttempt_opencode (parse : PyStr → Except PyErr (Option StreamEvent))
    (a : Attempt) :
    stepAttempt parse opencodeRotate () a
      = ((), .done (match runReadLoop parse initLoopState a.stdout with
                    | .error e => .error (.pyExc e)
                    | .ok st => finishAttempt st)) := by
  unfold stepAttempt
  cases hread : runReadLoop parse initLoopState a.stdout
  · rfl
  · dsimp only []
    split
    · rfl
    · rfl

theorem run_opencode_eq (stdout stderr : List PyStr) (rc : Int) :
    run_streaming_opencode stdout stderr rc
      = some (1, match runReadLoop OpenCodeAssistant.parse_line initLoopState stdout with
                 | .error e => .error (.pyExc e)
                 | .ok st => finishAttempt st) := by
  unfold run_streaming_opencode runLoop
  rw [stepAttempt_opencode]

set_option maxHeartbeats 1000000 in
theorem run_opencode_ok (stdout stderr : List PyStr) (rc : Int) (k : Nat)
    (r : StreamingResultM)
    (h : run_streaming_opencode stdout stderr rc = some (k, .ok r)) :
    ∃ st, runReadLoop OpenCodeAssistant.parse_line initLoopState stdout = .ok st ∧
      k = 1 ∧ r.output = strip_ansi (pyStrip st.output_buffer) ∧
      r.tokens = st.token_count ∧
      r.question = detect_question r.output := by
  cases hread : runReadLoop OpenCodeAssistant.parse_line initLoopState stdout with
  | error e =>
    have heq : run_streaming_opencode stdout stderr rc = some (1, .error (.pyExc e)) := by
      rw [run_opencode_eq, hread]
    rw [heq] at h
    simp at h
  | ok st =>
    have heq : run_streaming_opencode stdout stderr rc = some (1, finishAttempt st) := by
      rw [run_opencode_eq, hread]
    rw [heq] at h
    simp only [Option.some.injEq, Prod.mk.injEq] at h
    obtain ⟨hk, hok⟩ := h
    refine ⟨st, rfl, hk.symm, ?_⟩
    unfold finishAttempt at hok
    split at hok
    · cases hok
    · cases hok
      refine ⟨rfl, rfl, ?_⟩
      rfl

end StreamOrchestrator

/-! C4: the clarifying-question detector window. -/

namespace StreamOrchestrator

/-- C4 counterexample: a qualifying question followed by four empty lines
and a short line.  The question is among the last five non-empty lines, so
the claim says it is returned; the code windows the last five lines with
empties included, pushing the question out, and returns nothing. -/
theorem c4_counterexample :
    detect_question "Is it OK to proceed now?\n\n\n\n\nok".data = none ∧
    detect_question_claim_window "Is it OK to proceed now?\n\n\n\n\nok".data
      = some "Is it OK to proceed now?".data := by
  constructor <;> rfl

/-- C4 (amended): the detector windows the last five lines of the trimmed
output, empty lines included, and returns the most recent line in that
window containing a question mark whose stripped form is longer than ten
characters (returned stripped); in particular, an output whose last line
is the Scenario D question yields exactly that line. -/
theorem c4_last_five_lines_window :
    (∀ text : PyStr, detect_question text = detect_question_spec text) ∧
    detect_question "I ran the analysis.\nShould I proceed with deleting the file?".data
      = some "Should I proceed with deleting the file?".data := by
  constructor
  · intro text
    simp only [detect_question, detect_question_spec]
    have hwin : (if (splitNl (pyStrip text)).length ≥ 5
        then lastN 5 (splitNl (pyStrip text)) else splitNl (pyStrip text))
        = lastN 5 (splitNl (pyStrip text)) := by
      split
      · rfl
      · unfold lastN
        have h0 : (splitNl (pyStrip text)).length - 5 = 0 := by omega
        rw [h0, List.drop_zero]
    rw [hwin, List.getLast?_map, filter_getLast?_eq_find?_reverse]
  · rfl

end StreamOrchestrator

/-! C9 and C10: token counting and question provenance. -/

namespace StreamOrchestrator

theorem detect_question_some (text q : PyStr) (h : detect_question text = some q) :
    ∃ l ∈ lastN 5 (splitNl (pyStrip text)),
      (containsSub "?".data l = true ∧ 10 < (pyStrip l).length) ∧ q = pyStrip l := by
  simp only [detect_question] at h
  have hwin : (if (splitNl (pyStrip text)).length ≥ 5
      then lastN 5 (splitNl (pyStrip text)) else splitNl (pyStrip text))
      = lastN 5 (splitNl (pyStrip text)) := by
    split
    · rfl
    · unfold lastN
      have h0 : (splitNl (pyStrip text)).length - 5 = 0 := by omega
      rw [h0, List.drop_zero]
  rw [hwin] at h
  have hq := getLast?_mem_of h
  obtain ⟨l, hl, rfl⟩ := List.mem_map.mp hq
  have hfil := List.mem_filter.mp hl
  refine ⟨l, hfil.1, ?_, rfl⟩
  have hp := hfil.2
  simp only [Bool.and_eq_true, decide_eq_true_eq] at hp
  exact hp

/-- C9: the tokens field of a returned StreamingResult equals the number
of stdout lines decoded to Reasoning events; Text, ToolUse and ToolResult
events never change the count. -/
theorem c9_tokens_eq_reasoning_events (stdout stderr : List PyStr) (rc : Int)
    (k : Nat) (r : StreamingResultM)
    (h : run_streaming_opencode stdout stderr rc = some (k, .ok r)) :
    r.tokens = reasoningCount stdout := by
  obtain ⟨st, hread, -, -, htok, -⟩ := run_opencode_ok stdout stderr rc k r h
  have hcount := runReadLoop_tokens stdout initLoopState st hread
  rw [htok, hcount]
  simp [initLoopState]

/-- C9 witness: two reasoning lines (one with empty content) and one text
line produce a result with two tokens. -/
theorem c9_witness :
    run_streaming_opencode
        ["\x7b\"type\":\"reasoning\",\"part\":\x7b\"text\":\"think\"\x7d\x7d".data,
         "\x7b\"type\":\"reasoning\",\"part\":\x7b\x7d\x7d".data,
         "\x7b\"type\":\"text\",\"part\":\x7b\"text\":\"ans\"\x7d\x7d".data] [] 0
      = some (1, .ok { output := "thinkans".data, tokens := 2, question := none,
                       metadataQuestion := none }) ∧
    StreamingResultM.tokens
        { output := "thinkans".data, tokens := 2, question := none,
          metadataQuestion := none }
      = reasoningCount
        ["\x7b\"type\":\"reasoning\",\"part\":\x7b\"text\":\"think\"\x7d\x7d".data,
         "\x7b\"type\":\"reasoning\",\"part\":\x7b\x7d\x7d".data,
         "\x7b\"type\":\"text\",\"part\":\x7b\"text\":\"ans\"\x7d\x7d".data] :=
  ⟨rfl, c9_tokens_eq_reasoning_events _ [] 0 1 _ rfl⟩

/-- C10 counterexample: the decoded text ends in five newlines followed by
an ANSI reset; stripping the whitespace first and the ANSI code second
leaves a cleaned output with five trailing empty lines, so the detected
question is not the strip of any of the last five lines of the result
output (it lives further up); the claim holds only for the re-trimmed
output. -/
theorem c10_counterexample :
    run_streaming_opencode
        ["\x7b\"type\":\"text\",\"part\":\x7b\"text\":\"Should I proceed now?\\n\\n\\n\\n\\n\\u001b[0m\"\x7d\x7d".data]
        [] 0
      = some (1, .ok { output := "Should I proceed now?\n\n\n\n\n".data, tokens := 0,
                       question := some "Should I proceed now?".data,
                       metadataQuestion := some "Should I proceed now?".data }) ∧
    (lastN 5 (splitNl "Should I proceed now?\n\n\n\n\n".data)).all
        (fun l => decide (pyStrip l ≠ "Should I proceed now?".data)) = true := by
  constructor
  · rfl
  · rfl

/-- C10 (amended): whenever a run returns a result with a question q, the
q contains a question mark, its length exceeds ten, and q is the strip of
one of the last five lines of the whitespace-trimmed result output. -/
theorem c10_question_properties (stdout stderr : List PyStr) (rc : Int)
    (k : Nat) (r : StreamingResultM) (q : PyStr)
    (h : run_streaming_opencode stdout stderr rc = some (k, .ok r))
    (hq : r.question = some q) :
    containsSub "?".data q = true ∧ 10 < q.length ∧
    ∃ l ∈ lastN 5 (splitNl (pyStrip r.output)), q = pyStrip l := by
  obtain ⟨st, hread, hk, hout, htok, hques⟩ := run_opencode_ok stdout stderr rc k r h
  rw [hques] at hq
  obtain ⟨l, hlmem, ⟨hcont, hlen⟩, rfl⟩ := detect_question_some _ _ hq
  refine ⟨?_, hlen, ⟨l, hlmem, rfl⟩⟩
  have hconv : ("?".data : PyStr) = ['?'] := rfl
  rw [hconv] at hcont ⊢
  have h1 : ('?' : Char) ∈ l := containsSub_singleton.mp hcont
  have h2 : ('?' : Char) ∈ pyStrip l := mem_pyStrip_of_mem h1 rfl
  exact containsSub_singleton.mpr h2

/-- C10 witness: a plain non-JSON question line becomes both the output
and the detected question. -/
theorem c10_witness :
    run_streaming_opencode ["Should I proceed with deleting the file?".data] [] 0
      = some (1, .ok { output := "Should I proceed with deleting the file?".data,
                       tokens := 0,
                       question := some "Should I proceed with deleting the file?".data,
                       metadataQuestion := some "Should I proceed with deleting the file?".data }) ∧
    (containsSub "?".data "Should I proceed with deleting the file?".data = true ∧
     10 < "Should I proceed with deleting the file?".data.length ∧
     ∃ l ∈ lastN 5 (splitNl (pyStrip "Should I proceed with deleting the file?".data)),
       "Should I proceed with deleting the file?".data = pyStrip l) :=
  ⟨rfl, c10_question_properties ["Should I proceed with deleting the file?".data] [] 0 1
    { output := "Should I proceed with deleting the file?".data, tokens := 0,
      question := some "Should I proceed with deleting the file?".data,
      metadataQuestion := some "Should I proceed with deleting the file?".data }
    "Should I proceed with deleting the file?".data rfl rfl⟩

end StreamOrchestrator

/-! C1: the rotation bound. -/

theorem indexOf_cons_beq {α : Type} [BEq α] {a b : α} {t : List α} :
    (b :: t).indexOf a = bif b == a then 0 else t.indexOf a + 1 := by
  unfold List.indexOf
  rw [List.findIdx_cons]

theorem indexOf_lt_length_of_mem {α : Type} [BEq α] [LawfulBEq α] {l : List α}
    {a : α} (h : a ∈ l) : l.indexOf a < l.length := by
  induction l with
  | nil => simp at h
  | cons b t ih =>
    rw [indexOf_cons_beq]
    cases hba : b == a
    · have hat : a ∈ t := by
        rcases List.mem_cons.mp h with h1 | h1
        · rw [h1] at hba
          simp at hba
        · exact h1
      simp only [cond_false, List.length_cons]
      exact Nat.succ_lt_succ (ih hat)
    · simp

theorem indexOf_get_of_nodup {α : Type} [BEq α] [LawfulBEq α] {l : List α}
    (hnd : l.Nodup) (i : ℕ) (h : i < l.length) :
    l.indexOf (l.get ⟨i, h⟩) = i := by
  induction l generalizing i with
  | nil => simp at h
  | cons b t ih =>
    obtain ⟨hbt, htnd⟩ := List.nodup_cons.mp hnd
    cases i with
    | zero =>
      show (b :: t).indexOf b = 0
      rw [indexOf_cons_beq]
      simp
    | succ j =>
      have hj : j < t.length := by simpa using h
      have hget : (b :: t).get ⟨j + 1, h⟩ = t.get ⟨j, hj⟩ := rfl
      rw [hget, indexOf_cons_beq]
      have hne : (b == t.get ⟨j, hj⟩) = false := by
        apply beq_eq_false_iff_ne.mpr
        intro heq
        exact hbt (heq ▸ List.get_mem t j hj)
      rw [hne]
      simp only [cond_false]
      rw [ih htnd j hj]

namespace StreamOrchestrator

theorem stepAttempt_read_ok (a : Attempt) (ha : rateLimitFailing a) :
    ∃ st, runReadLoop GeminiAssistant.parse_line initLoopState a.stdout = .ok st := by
  obtain ⟨-, -, hreadOk⟩ := ha
  cases hr : runReadLoop GeminiAssistant.parse_line initLoopState a.stdout with
  | ok st => exact ⟨st, rfl⟩
  | error e => rw [hr] at hreadOk; simp [Except.isOk, Except.toBool] at hreadOk

/-- C1 (amended): with a duplicate-free model list, starting from a model
at index i of the N models, an environment of consecutive rate-limit
failures makes the orchestrator perform exactly N - i attempts (so exactly
N from the first model, and never more than N) and then stop retrying; the
terminal outcome is the fall-through finish of the final attempt: the
empty-output RuntimeError when that attempt produced no token and only
whitespace output (stderr is logged, not carried in the raised error), and
an ordinary successful result carrying the output otherwise. -/
theorem c1_rotation_bound (models : List PyStr) (attempts : List Attempt)
    (current : PyStr)
    (hnd : models.Nodup) (hmem : current ∈ models)
    (hall : ∀ a ∈ attempts, rateLimitFailing a)
    (hlen : models.length - models.indexOf current ≤ attempts.length) :
    ∃ a, attempts.get? (models.length - models.indexOf current - 1) = some a ∧
      run_streaming_gemini ⟨models, current⟩ attempts
        = some (models.length - models.indexOf current, attemptFinal a) ∧
      models.length - models.indexOf current ≤ models.length := by
  induction attempts generalizing current with
  | nil =>
    exfalso
    have hidx := indexOf_lt_length_of_mem hmem
    simp only [List.length_nil] at hlen
    omega
  | cons a rest ih =>
    have hidx : models.indexOf current < models.length := indexOf_lt_length_of_mem hmem
    have ha := hall a (List.mem_cons_self a rest)
    have hrest : ∀ b ∈ rest, rateLimitFailing b :=
      fun b hb => hall b (List.mem_cons_of_mem a hb)
    obtain ⟨hrc, hrl, -⟩ := ha
    obtain ⟨st, hst⟩ := stepAttempt_read_ok a (hall a (List.mem_cons_self a rest))
    by_cases hlt : models.indexOf current < models.length - 1
    · have hsucc : models.indexOf current + 1 < models.length := by omega
      have hrot : GeminiAssistant.rotate_model ⟨models, current⟩
          = .ok (true, ⟨models, models.get ⟨models.indexOf current + 1, hsucc⟩⟩) := by
        simp [GeminiAssistant.rotate_model, hmem, hlt]
      have hmem2 : models.get ⟨models.indexOf current + 1, hsucc⟩ ∈ models :=
        List.get_mem models _ _
      have hidx2 : models.indexOf (models.get ⟨models.indexOf current + 1, hsucc⟩)
          = models.indexOf current + 1 :=
        indexOf_get_of_nodup hnd (models.indexOf current + 1) hsucc
      have hstep : stepAttempt GeminiAssistant.parse_line GeminiAssistant.rotate_model
          ⟨models, current⟩ a
          = (⟨models, models.get ⟨models.indexOf current + 1, hsucc⟩⟩, .retry) := by
        unfold stepAttempt
        rw [hst]
        dsimp only []
        rw [if_pos ⟨hrc, hrl⟩, hrot]
      have hlen2 : models.length
          - models.indexOf (models.get ⟨models.indexOf current + 1, hsucc⟩)
          ≤ rest.length := by
        rw [hidx2]
        simp only [List.length_cons] at hlen
        omega
      obtain ⟨b, hb1, hb2, hb3⟩ := ih (models.get ⟨models.indexOf current + 1, hsucc⟩)
        hmem2 hrest hlen2
      rw [hidx2] at hb1 hb2 hb3
      refine ⟨b, ?_, ?_, ?_⟩
      · have hk : models.length - models.indexOf current - 1
            = (models.length - (models.indexOf current + 1) - 1) + 1 := by omega
        rw [hk]
        simpa using hb1
      · unfold run_streaming_gemini runLoop
        rw [hstep]
        dsimp only []
        unfold run_streaming_gemini at hb2
        rw [hb2]
        have hN : models.length - models.indexOf current
            = (models.length - (models.indexOf current + 1)) + 1 := by omega
        rw [hN]
      · omega
    · have hrot : GeminiAssistant.rotate_model ⟨models, current⟩
          = .ok (false, ⟨models, current⟩) := by
        simp [GeminiAssistant.rotate_model, hmem, hlt]
      have hstep : stepAttempt GeminiAssistant.parse_line GeminiAssistant.rotate_model
          ⟨models, current⟩ a = (⟨models, current⟩, .done (finishAttempt st)) := by
        unfold stepAttempt
        rw [hst]
        dsimp only []
        rw [if_pos ⟨hrc, hrl⟩, hrot]
      have hone : models.length - models.indexOf current = 1 := by omega
      refine ⟨a, ?_, ?_, ?_⟩
      · rw [hone]
        simp
      · unfold run_streaming_gemini runLoop
        rw [hstep, hone]
        dsimp only []
        unfold attemptFinal
        rw [hst]
      · omega

/-- C1 counterexample: two consecutive rate-limit failures against a
two-model Gemini assistant whose second attempt still produced output.
The run performs exactly two attempts and then terminates, but with a
successful StreamingResult carrying the output (and no stderr), not with
a failure: the fall-through after the failed rotation only raises when
the output is empty. -/
theorem c1_counterexample :
    (∀ x ∈ [(⟨[], ["429 rate limit".data], 1⟩ : Attempt),
            (⟨["partial answer from model b".data], ["429 rate limit".data], 1⟩ : Attempt)],
       rateLimitFailing x) ∧
    (["a".data, "b".data] : List PyStr).Nodup ∧
    run_streaming_gemini ⟨["a".data, "b".data], "a".data⟩
        [⟨[], ["429 rate limit".data], 1⟩,
         ⟨["partial answer from model b".data], ["429 rate limit".data], 1⟩]
      = some (2, .ok { output := "partial answer from model b".data, tokens := 0,
                       question := none, metadataQuestion := none }) := by
  refine ⟨by decide, by decide, ?_⟩
  rfl

/-- C1 witness: two all-empty rate-limit failures starting from the first
of two models give exactly two attempts and the empty-output failure. -/
theorem c1_witness :
    (["a".data, "b".data] : List PyStr).Nodup ∧
    "a".data ∈ (["a".data, "b".data] : List PyStr) ∧
    (∀ x ∈ [(⟨[], ["429 rate limit".data], 1⟩ : Attempt),
            (⟨[], ["quota exceeded".data], 1⟩ : Attempt)], rateLimitFailing x) ∧
    (["a".data, "b".data] : List PyStr).length
        - (["a".data, "b".data] : List PyStr).indexOf "a".data
      ≤ ([(⟨[], ["429 rate limit".data], 1⟩ : Attempt),
          (⟨[], ["quota exceeded".data], 1⟩ : Attempt)]).length ∧
    (∃ a, [(⟨[], ["429 rate limit".data], 1⟩ : Attempt),
           (⟨[], ["quota exceeded".data], 1⟩ : Attempt)].get?
          ((["a".data, "b".data] : List PyStr).length
            - (["a".data, "b".data] : List PyStr).indexOf "a".data - 1) = some a ∧
      run_streaming_gemini ⟨["a".data, "b".data], "a".data⟩
          [⟨[], ["429 rate limit".data], 1⟩, ⟨[], ["quota exceeded".data], 1⟩]
        = some ((["a".data, "b".data] : List PyStr).length
            - (["a".data, "b".data] : List PyStr).indexOf "a".data, attemptFinal a) ∧
      (["a".data, "b".data] : List PyStr).length
          - (["a".data, "b".data] : List PyStr).indexOf "a".data
        ≤ (["a".data, "b".data] : List PyStr).length) :=
  ⟨by decide, by decide, by decide, by decide,
    c1_rotation_bound ["a".data, "b".data]
      [⟨[], ["429 rate limit".data], 1⟩, ⟨[], ["quota exceeded".data], 1⟩]
      "a".data (by decide) (by decide) (by decide) (by decide)⟩

end StreamOrchestrator

/-! C6: the progress formula. -/

namespace ProgressEstimator

theorem lookupD_durations_pos (stage : ProcessingStage) :
    0 < lookupD base_durations stage 30 := by
  cases stage <;> simp [lookupD, base_durations, List.find?]

theorem lookupD_weights_nonneg (stage : ProcessingStage) :
    0 ≤ lookupD stage_weights stage (10/100) := by
  cases stage <;> simp [lookupD, stage_weights, List.find?] <;> norm_num

theorem completed_add_weight_le_one (stage : ProcessingStage)
    (hmem : stage ∈ stage_weights.map Prod.fst) :
    completedWeight stage_weights stage
      + lookupD stage_weights stage (10/100) ≤ 1 := by
  fin_cases hmem <;> simp [completedWeight, lookupD, stage_weights, List.find?] <;> norm_num

theorem gpf_formula (stage : ProcessingStage) (t : ℚ) (ht : 0 < t)
    (hD : 0 < lookupD base_durations stage 30)
    (hw0 : 0 ≤ lookupD stage_weights stage (10/100))
    (hcw : completedWeight stage_weights stage
        + lookupD stage_weights stage (10/100) ≤ 1) :
    get_progress_fraction (some stage) base_durations t
      = completedWeight stage_weights stage
        + lookupD stage_weights stage (10/100)
          * min 1 (t / lookupD base_durations stage 30) := by
  have hsp : min 1 (t / lookupD base_durations stage 30) ≤ 1 := min_le_left _ _
  have hle : completedWeight stage_weights stage
      + lookupD stage_weights stage (10/100)
        * min 1 (t / lookupD base_durations stage 30) ≤ 1 := by
    nlinarith
  unfold get_progress_fraction
  simp only [ht, hD, decide_True, Bool.and_self, if_true]
  exact min_eq_right hle

theorem gpf_mono (stage : ProcessingStage) (t₁ t₂ : ℚ) (h1 : 0 < t₁) (h12 : t₁ ≤ t₂)
    (hD : 0 < lookupD base_durations stage 30)
    (hw0 : 0 ≤ lookupD stage_weights stage (10/100))
    (hcw : completedWeight stage_weights stage
        + lookupD stage_weights stage (10/100) ≤ 1) :
    get_progress_fraction (some stage) base_durations t₁
      ≤ get_progress_fraction (some stage) base_durations t₂ := by
  have h2 : (0 : ℚ) < t₂ := lt_of_lt_of_le h1 h12
  rw [gpf_formula stage t₁ h1 hD hw0 hcw, gpf_formula stage t₂ h2 hD hw0 hcw]
  have hdiv : t₁ / lookupD base_durations stage 30 ≤ t₂ / lookupD base_durations stage 30 :=
    (div_le_div_iff_of_pos_right hD).mpr h12
  exact add_le_add_left (mul_le_mul_of_nonneg_left (min_le_min le_rfl hdiv) hw0) _

/-- C6 counterexample: with the Thinking stage active and its default
duration, at elapsed time zero the code reports completed weight plus half
the stage weight (the 0.5 fallback), not the min formula, and the reported
progress at one second is strictly smaller than at zero seconds. -/
theorem c6_counterexample :
    get_progress_fraction (some .thinking) base_durations 0
        ≠ completedWeight stage_weights .thinking
          + lookupD stage_weights .thinking (10/100)
            * min 1 (0 / lookupD base_durations .thinking 30) ∧
    get_progress_fraction (some .thinking) base_durations 1
        < get_progress_fraction (some .thinking) base_durations 0 := by
  have h0 : get_progress_fraction (some .thinking) base_durations 0 = 13/40 := by
    simp [get_progress_fraction, completedWeight, lookupD, stage_weights,
      base_durations, List.find?]
    norm_num [min_def]
  have h1 : get_progress_fraction (some .thinking) base_durations 1 = 37/180 := by
    simp [get_progress_fraction, completedWeight, lookupD, stage_weights,
      base_durations, List.find?]
    norm_num [min_def]
  have hr : completedWeight stage_weights ProcessingStage.thinking
      + lookupD stage_weights .thinking (10/100)
        * min 1 (0 / lookupD base_durations .thinking 30) = 1/5 := by
    simp [completedWeight, lookupD, stage_weights, base_durations, List.find?]
    norm_num [min_def]
  rw [h0, h1, hr]
  norm_num

/-- C6 (amended): for every stage of the weight table and every elapsed
time t greater than zero, the reported progress equals the completed
weight of the preceding stages plus the stage weight times min(1, t/D)
for the stage's default duration D, and is non-decreasing on positive
elapsed times; at t equal to zero the code substitutes a fixed stage
progress of one half, so the formula does not extend to zero. -/
theorem c6_progress_formula (stage : ProcessingStage) (t₁ t₂ : ℚ)
    (hmem : stage ∈ stage_weights.map Prod.fst)
    (h1 : 0 < t₁) (h12 : t₁ ≤ t₂) :
    get_progress_fraction (some stage) base_durations t₁
      = completedWeight stage_weights stage
        + lookupD stage_weights stage (10/100)
          * min 1 (t₁ / lookupD base_durations stage 30) ∧
    get_progress_fraction (some stage) base_durations t₁
      ≤ get_progress_fraction (some stage) base_durations t₂ :=
  ⟨gpf_formula stage t₁ h1 (lookupD_durations_pos stage) (lookupD_weights_nonneg stage)
      (completed_add_weight_le_one stage hmem),
    gpf_mono stage t₁ t₂ h1 h12 (lookupD_durations_pos stage) (lookupD_weights_nonneg stage)
      (completed_add_weight_le_one stage hmem)⟩

/-- C6 witness at the Thinking stage with elapsed times one and two. -/
theorem c6_witness :
    ProcessingStage.thinking ∈ stage_weights.map Prod.fst ∧ (0 : ℚ) < 1 ∧ (1 : ℚ) ≤ 2 ∧
    (get_progress_fraction (some .thinking) base_durations 1
        = completedWeight stage_weights .thinking
          + lookupD stage_weights .thinking (10/100)
            * min 1 (1 / lookupD base_durations .thinking 30) ∧
     get_progress_fraction (some .thinking) base_durations 1
        ≤ get_progress_fraction (some .thinking) base_durations 2) :=
  ⟨by decide, by norm_num, by norm_num,
    c6_progress_formula .thinking 1 2 (by decide) (by norm_num) (by norm_num)⟩

end ProgressEstimator

end Talk2Code
